import Mathlib

/-!
Verification of the cart/order core of the pizza storefront.

The development shallowly embeds two components:

* `CartManager` (src/services/cart_manager.py): a per-session shopping cart
  stored as a loosely-typed mapping `pizza_id → {name, price, quantity}`.
  Python values stored in the session are modelled by small inductive types
  that distinguish exactly the shapes the code's `isinstance`/`in` checks
  distinguish: a cart slot is either a dict or not; an entry is either a
  dict or not; the `name` field holds a string; the `price` and `quantity`
  fields hold either a number (modelled as `ℚ`, exact, so floating
  tolerances are trivially met) or a non-numeric value (`PyNumVal.notNum`)
  on which Python's `+ 1` / `*` / `+=` raise `TypeError`.
  Python dicts are modelled as insertion-ordered association lists;
  `d[k] = v` updates the first (only) occurrence in place or appends,
  `del d[k]` removes it, matching dict semantics for duplicate-free keys.
  Exceptions are modelled with `Except`: `.error s` means the operation
  raised and left the session in state `s` (after the `except` handler ran).

* `OrderProcessor` (src/services/order_processor.py): orders persisted in a
  relational store. The store is modelled as two lists of rows plus an
  autoincrement counter (`nextId`, SQLite `INTEGER PRIMARY KEY AUTOINCREMENT`)
  and a clock (`now`, the `CURRENT_TIMESTAMP` default of `order_date`).
  The connection's transaction semantics (sqlite3 implicit transaction,
  `commit`/`rollback`) are modelled by building the inserted rows on the
  side and only merging them into the store at the `commit` point; every
  failure path returns the original store, which is exactly what
  `conn.rollback()` achieves for an uncommitted implicit transaction.
  A store fault at statement boundaries is modelled by an explicit fault
  injection argument (`faultAt` / `fault`), so the `except` branches of the
  source are part of the same definitions.
-/

namespace PizzaShop

/-- Value stored under a numeric-ish field (`price`, `quantity`) of a cart
entry: either a Python number (modelled exactly as `ℚ`) or some non-numeric
value on which arithmetic (`+= 1`, `*`) raises `TypeError`. -/
inductive PyNumVal where
  | num (q : ℚ)
  | notNum
  deriving DecidableEq, Repr

/-- Fields of a cart entry that is a Python dict; `none` models an absent
key. Only the three keys the code ever reads are modelled. -/
structure ItemFields where
  name : Option String
  price : Option PyNumVal
  quantity : Option PyNumVal
  deriving DecidableEq, Repr

/-- A value stored at a cart key: a dict of fields, or any non-dict value
(the code only tests `isinstance(item, dict)`). -/
inductive ItemVal where
  | dict (f : ItemFields)
  | nonDict
  deriving DecidableEq, Repr

/-- Entries of a cart dict, in insertion order, keyed by stringified
pizza id. -/
abbrev CartEntries := List (String × ItemVal)

/-- The value stored under the session key `cart`: a dict, or any non-dict
value (the code only tests `isinstance(cart, dict)`). -/
inductive CartVal where
  | dict (es : CartEntries)
  | nonDict
  deriving DecidableEq, Repr

/-- The per-user session, as far as the cart manager reads it: the `cart`
key may be absent (`none`) or hold any value. -/
structure Session where
  cart : Option CartVal
  deriving DecidableEq, Repr

/-- Python `k in d` on the modelled dict. -/
def hasKey (es : CartEntries) (k : String) : Bool :=
  es.any (fun e => e.1 = k)

/-- Python `d[k]` on the modelled dict (first occurrence). -/
def lookupKey (es : CartEntries) (k : String) : Option ItemVal :=
  (es.find? (fun e => e.1 = k)).map (fun e => e.2)

/-- Python `d[k] = v`: replace the first occurrence in place, else append. -/
def setKey : CartEntries → String → ItemVal → CartEntries
  | [], k, v => [(k, v)]
  | (k0, v0) :: rest, k, v =>
    if k0 = k then (k, v) :: rest else (k0, v0) :: setKey rest k v

/-- Python `del d[k]`: drop the first occurrence. -/
def delKey : CartEntries → String → CartEntries
  | [], _ => []
  | (k0, v0) :: rest, k =>
    if k0 = k then rest else (k0, v0) :: delKey rest k

/-- The fresh entry `{'name': pizza_name, 'price': price, 'quantity': 1}`
built by `add_item` (cart_manager.py lines 43-47 and 49-53). -/
def freshEntry (pizza_name : String) (price : ℚ) : ItemVal :=
  .dict ⟨some pizza_name, some (.num price), some (.num 1)⟩

namespace CartManager

/-- Embedding of `CartManager.add_item` (cart_manager.py lines 13-62).
`pizza_id` is taken as the already-stringified key (`str(pizza_id)`).
Lines 24-33 normalize an absent or non-dict cart to `{}`; line 39 checks
`isinstance(cart[k], dict) and 'quantity' in cart[k]`; line 40 increments,
raising `TypeError` when the stored quantity is non-numeric, in which case
the handler (lines 57-62) resets the cart to `{}` and re-raises (`.error`);
otherwise the entry is created / replaced with `freshEntry` and the cart is
written back to the session. -/
def add_item (pizza_id pizza_name : String) (price : ℚ) (s : Session) :
    Except Session Session :=
  let es : CartEntries :=
    match s.cart with
    | none => []
    | some (.dict es) => es
    | some .nonDict => []
  match lookupKey es pizza_id with
  | some (.dict f) =>
    match f.quantity with
    | some (.num q) =>
      .ok ⟨some (.dict (setKey es pizza_id
        (.dict { f with quantity := some (.num (q + 1)) })))⟩
    | some .notNum => .error ⟨some (.dict [])⟩
    | none => .ok ⟨some (.dict (setKey es pizza_id (freshEntry pizza_name price)))⟩
  | some .nonDict => .ok ⟨some (.dict (setKey es pizza_id (freshEntry pizza_name price)))⟩
  | none => .ok ⟨some (.dict (setKey es pizza_id (freshEntry pizza_name price)))⟩

/-- Embedding of the `except` handler of `add_item` (lines 57-62): the cart
is reset to `{}` and the fault re-raised. -/
def add_item_handler (_s : Session) : Session :=
  ⟨some (.dict [])⟩

/-- The validity check of `get_cart` (line 87):
`isinstance(item, dict) and 'name' in item and 'price' in item and
'quantity' in item`. -/
def wfItem : ItemVal → Bool
  | .dict f => f.name.isSome && f.price.isSome && f.quantity.isSome
  | .nonDict => false

/-- Result of `get_cart`: the returned mapping, the session afterwards, and
whether the clean-up write at line 94 (`session['cart'] = valid_cart`) ran. -/
structure GetCartRes where
  result : CartEntries
  sess : Session
  cleaned : Bool
  deriving DecidableEq, Repr

/-- Embedding of `CartManager.get_cart` (cart_manager.py lines 64-102).
An absent cart key is initialized to `{}` (line 74); a non-dict cart is
reset to `{}` and `{}` returned (lines 79-82); otherwise entries failing
`wfItem` are filtered out and, when the filtered length differs from the
original (line 93), the cleaned mapping is persisted back (line 94). -/
def get_cart (s : Session) : GetCartRes :=
  match s.cart with
  | none => ⟨[], ⟨some (.dict [])⟩, false⟩
  | some .nonDict => ⟨[], ⟨some (.dict [])⟩, false⟩
  | some (.dict es) =>
    let valid := es.filter (fun e => wfItem e.2)
    if valid.length ≠ es.length then ⟨valid, ⟨some (.dict valid)⟩, true⟩
    else ⟨valid, s, false⟩

/-- Embedding of the `except` handler of `get_cart` (lines 98-102): the
cart is reset to `{}` and `{}` returned. -/
def get_cart_handler (_s : Session) : GetCartRes :=
  ⟨[], ⟨some (.dict [])⟩, false⟩

/-- The summation loop of `get_cart_total` (lines 114-117): left-to-right
over the entries returned by `get_cart`; an entry whose `price` or
`quantity` is present but non-numeric makes `item['price'] * item['quantity']`
(or the subsequent `+=`) raise `TypeError`, modelled as `none`; entries
failing the line-116 check are skipped. -/
def sumLoop : CartEntries → Option ℚ
  | [] => some 0
  | (_, it) :: rest =>
    match it with
    | .nonDict => sumLoop rest
    | .dict f =>
      match f.price, f.quantity with
      | some (.num p), some (.num q) => (sumLoop rest).map (fun t => p * q + t)
      | some _, some _ => none
      | _, _ => sumLoop rest

/-- Embedding of `CartManager.get_cart_total` (cart_manager.py lines
104-121): runs `get_cart`, then the summation loop; the `except` branch
(lines 119-121) returns `0.0`, leaving the session as `get_cart` wrote it. -/
def get_cart_total (s : Session) : ℚ × Session :=
  let g := get_cart s
  match sumLoop g.result with
  | some t => (t, g.sess)
  | none => (0, g.sess)

/-- Embedding of `CartManager.remove_item` (cart_manager.py lines 129-158).
An absent cart key is initialized to `{}` and the call returns (lines
138-140); a non-dict cart is reset to `{}` (lines 145-148); a present key
is deleted and the cart written back (lines 152-155); an absent key does
nothing. -/
def remove_item (pizza_id : String) (s : Session) : Session :=
  match s.cart with
  | none => ⟨some (.dict [])⟩
  | some .nonDict => ⟨some (.dict [])⟩
  | some (.dict es) =>
    if hasKey es pizza_id then ⟨some (.dict (delKey es pizza_id))⟩ else s

/-- Embedding of the `except` handler of `remove_item` (lines 156-158): the
fault is logged and swallowed; the session is left exactly as it was when
the fault struck (no reset). -/
def remove_item_handler (s : Session) : Session :=
  s

/-- Embedding of `CartManager.clear_cart` (cart_manager.py lines 160-164). -/
def clear_cart (_s : Session) : Session :=
  ⟨some (.dict [])⟩

end CartManager

/-- A row of the `orders` table (database.py lines 57-65): `id` is the
AUTOINCREMENT primary key, `order_date` the store-assigned
`CURRENT_TIMESTAMP` default, modelled as a natural-number timestamp. -/
structure OrderRow where
  id : ℕ
  customer_name : String
  phone : String
  address : String
  total_price : ℚ
  order_date : ℕ
  deriving DecidableEq, Repr

/-- A row of the `order_items` table (database.py lines 68-79), minus its
own surrogate `id`, which the code never reads back. -/
structure OrderItemRow where
  order_id : ℕ
  pizza_id : ℤ
  pizza_name : String
  price : ℚ
  quantity : ℚ
  deriving DecidableEq, Repr

/-- The persistent store as the order processor sees it: the two order
tables in insertion order, the AUTOINCREMENT counter feeding
`cursor.lastrowid` for `orders` inserts, and the clock behind
`CURRENT_TIMESTAMP`. -/
structure Db where
  orders : List OrderRow
  order_items : List OrderItemRow
  nextId : ℕ
  now : ℕ
  deriving DecidableEq, Repr

/-- Store well-formedness: every existing row id predates the
AUTOINCREMENT counter. This is the invariant SQLite maintains for an
AUTOINCREMENT key and the rows linked to it. -/
def DbWF (db : Db) : Prop :=
  (∀ r ∈ db.orders, r.id < db.nextId) ∧
  (∀ ir ∈ db.order_items, ir.order_id < db.nextId)

/-- Numeric value of a digit string, most significant digit first;
`none` when empty or containing a non-digit. -/
def digitsVal? (ds : List Char) : Option ℕ :=
  if ds.isEmpty then none
  else if ds.all Char.isDigit then
    some (ds.foldl (fun acc c => 10 * acc + (c.toNat - 48)) 0)
  else none

/-- Model of Python `int(s)` on a string: an optional `+`/`-` sign followed
by at least one digit, else `ValueError` (`none`). (Python additionally
strips surrounding whitespace and allows `_` digit separators; those forms
do not occur for stringified ids and are not modelled.) -/
def pyInt (s : String) : Option ℤ :=
  match s.data with
  | [] => none
  | c :: cs =>
    if c = '-' then (digitsVal? cs).map (fun n => -(n : ℤ))
    else if c = '+' then (digitsVal? cs).map (fun n => (n : ℤ))
    else (digitsVal? (c :: cs)).map (fun n => (n : ℤ))

/-- A well-formed cart entry as `create_order` reads it: the code accesses
`item['name']`, `item['price']`, `item['quantity']` (order_processor.py
line 47). -/
structure CheckoutItem where
  name : String
  price : ℚ
  quantity : ℚ
  deriving DecidableEq, Repr

namespace OrderProcessor

/-- The line-item insertion loop of `create_order` (order_processor.py
lines 44-48), executing one INSERT per cart entry in iteration order.
`int(pizza_id_str)` is modelled by `pyInt`; a non-numeric key
raises `ValueError` while the statement arguments are built (`none`).
`faultAt` injects a store fault at the statement with that index (the
order insert is statement 0, line items start at 1); `none` means the
whole INSERT sequence fails and the implicit transaction is rolled back. -/
def insert_items (faultAt : Option ℕ) (order_id : ℕ) :
    List (String × CheckoutItem) → ℕ → Option (List OrderItemRow)
  | [], _ => some []
  | (k, it) :: rest, idx =>
    match pyInt k with
    | none => none
    | some pid =>
      if faultAt = some idx then none
      else
        (insert_items faultAt order_id rest (idx + 1)).map
          (fun rows => (⟨order_id, pid, it.name, it.price, it.quantity⟩ : OrderItemRow) :: rows)

/-- Embedding of `OrderProcessor.create_order` (order_processor.py lines
13-60). The order INSERT (statement 0) yields `lastrowid = db.nextId`;
then one INSERT per cart entry; `conn.commit()` merges the pending rows
into the store. Any failure mid-sequence reaches the handler (lines
55-60), which rolls the uncommitted transaction back — the store is
returned unchanged — and re-raises, so no order id is produced (`none`). -/
def create_order (faultAt : Option ℕ) (customer_name phone address : String)
    (cart_items : List (String × CheckoutItem)) (total : ℚ) (db : Db) :
    Option ℕ × Db :=
  if faultAt = some 0 then (none, db)
  else
    let order_id := db.nextId
    match insert_items faultAt order_id cart_items 1 with
    | none => (none, db)
    | some rows =>
      (some order_id,
        { orders := db.orders ++
            [⟨order_id, customer_name, phone, address, total, db.now⟩]
          order_items := db.order_items ++ rows
          nextId := db.nextId + 1
          now := db.now })

/-- A line item as returned by `get_order_by_id` (order_processor.py lines
107-112). -/
structure OrderItemOut where
  pizza_id : ℤ
  pizza_name : String
  price : ℚ
  quantity : ℚ
  deriving DecidableEq, Repr

/-- The order dictionary built by `get_order_by_id` (order_processor.py
lines 99-115). -/
structure OrderOut where
  id : ℕ
  customer_name : String
  phone : String
  address : String
  total_price : ℚ
  order_date : ℕ
  items : List OrderItemOut
  deriving DecidableEq, Repr

/-- Embedding of `OrderProcessor.get_order_by_id` (order_processor.py
lines 62-122): `fetchone` on `WHERE id = ?` is the first matching row;
absent order gives `None`; line items are all `order_items` rows with this
`order_id`, in store (insertion) order. The `except` branch, which also
returns `None` on a store fault, is not separately modelled because no
claim quantifies over faults of this read. -/
def get_order_by_id (order_id : ℕ) (db : Db) : Option OrderOut :=
  match db.orders.find? (fun r => r.id = order_id) with
  | none => none
  | some row =>
    some
      { id := row.id
        customer_name := row.customer_name
        phone := row.phone
        address := row.address
        total_price := row.total_price
        order_date := row.order_date
        items := (db.order_items.filter (fun ir => ir.order_id = order_id)).map
          (fun ir => ⟨ir.pizza_id, ir.pizza_name, ir.price, ir.quantity⟩) }

/-- The `ORDER BY order_date DESC` comparison of `get_all_orders`. -/
def dateDesc (a b : OrderRow) : Prop :=
  b.order_date ≤ a.order_date

instance : DecidableRel dateDesc :=
  fun a b => Nat.decLe b.order_date a.order_date

instance : IsTotal OrderRow dateDesc :=
  ⟨fun a b => Nat.le_total b.order_date a.order_date⟩

instance : IsTrans OrderRow dateDesc :=
  ⟨fun _ _ _ h1 h2 => Nat.le_trans h2 h1⟩

/-- Embedding of `OrderProcessor.get_all_orders` (order_processor.py lines
124-173): rows sorted by `order_date` descending; the Python truthiness
test `if limit:` (line 148) appends `LIMIT {limit} OFFSET {offset}` only
when `limit` is neither `None` nor `0`. `fault = true` takes the `except`
branch (lines 169-173), returning `[]`. Negative limits (SQLite: no upper
bound) are outside the `ℕ` model; callers pass page sizes. -/
def get_all_orders (fault : Bool) (limit : Option ℕ) (offset : ℕ) (db : Db) :
    List OrderRow :=
  if fault then []
  else
    let sorted := db.orders.insertionSort dateDesc
    match limit with
    | none => sorted
    | some l => if l = 0 then sorted else (sorted.drop offset).take l

end OrderProcessor

/-- Spec-side: the contribution of one cart value to the cart total — the
product `unitPrice × quantity` for a valid (key-complete) entry with
numeric fields, and `0` for every malformed entry (`Malformed entries
silently contribute 0`). -/
def entryContribution : ItemVal → ℚ
  | .dict f =>
    match f.name, f.price, f.quantity with
    | some _, some (.num p), some (.num q) => p * q
    | _, _, _ => 0
  | .nonDict => 0

/-- Spec-side: `Σ (unitPrice × quantity)` over the entries of a cart, with
malformed entries contributing 0. -/
def specTotal (es : CartEntries) : ℚ :=
  (es.map (fun e => entryContribution e.2)).sum

/-- A cart value whose `price` and `quantity` fields are both numeric
(the domain on which Python's `price * quantity` and `+=` succeed). -/
def numericFields : ItemVal → Bool
  | .dict f =>
    match f.price, f.quantity with
    | some (.num _), some (.num _) => true
    | _, _ => false
  | .nonDict => false

/-! Helper lemmas about the association-list model of Python dicts. -/

theorem lookupKey_nil (k : String) : lookupKey [] k = none := rfl

theorem lookupKey_cons (k0 : String) (v0 : ItemVal) (rest : CartEntries) (k : String) :
    lookupKey ((k0, v0) :: rest) k = if k0 = k then some v0 else lookupKey rest k := by
  by_cases h : k0 = k
  · subst h
    simp [lookupKey, List.find?]
  · simp [lookupKey, List.find?, h]

theorem lookupKey_setKey_self (es : CartEntries) (k : String) (v : ItemVal) :
    lookupKey (setKey es k v) k = some v := by
  induction es with
  | nil => simp [setKey, lookupKey_cons]
  | cons e rest ih =>
    obtain ⟨k0, v0⟩ := e
    by_cases h : k0 = k
    · subst h
      simp [setKey, lookupKey_cons]
    · simpa [setKey, h, lookupKey_cons] using ih

theorem lookupKey_setKey_ne (es : CartEntries) (k : String) (v : ItemVal)
    (k2 : String) (h2 : k2 ≠ k) :
    lookupKey (setKey es k v) k2 = lookupKey es k2 := by
  induction es with
  | nil => simp [setKey, lookupKey_cons, lookupKey_nil, Ne.symm h2]
  | cons e rest ih =>
    obtain ⟨k0, v0⟩ := e
    by_cases h : k0 = k
    · subst h
      simp [setKey, lookupKey_cons, Ne.symm h2]
    · simp [setKey, h, lookupKey_cons, ih]

theorem lookupKey_delKey_ne (es : CartEntries) (k k2 : String) (h2 : k2 ≠ k) :
    lookupKey (delKey es k) k2 = lookupKey es k2 := by
  induction es with
  | nil => simp [delKey]
  | cons e rest ih =>
    obtain ⟨k0, v0⟩ := e
    by_cases h : k0 = k
    · subst h
      simp [delKey, lookupKey_cons, Ne.symm h2]
    · simp [delKey, h, lookupKey_cons, ih]

theorem lookupKey_eq_none_of_not_mem (es : CartEntries) (k : String)
    (h : k ∉ es.map Prod.fst) : lookupKey es k = none := by
  induction es with
  | nil => rfl
  | cons e rest ih =>
    obtain ⟨k0, v0⟩ := e
    simp only [List.map_cons, List.mem_cons] at h
    push_neg at h
    rw [lookupKey_cons, if_neg (Ne.symm h.1)]
    exact ih h.2

theorem lookupKey_delKey_self (es : CartEntries) (k : String)
    (hnd : (es.map Prod.fst).Nodup) :
    lookupKey (delKey es k) k = none := by
  induction es with
  | nil => rfl
  | cons e rest ih =>
    obtain ⟨k0, v0⟩ := e
    simp only [List.map_cons, List.nodup_cons] at hnd
    by_cases h : k0 = k
    · subst h
      simp only [delKey, if_pos rfl]
      exact lookupKey_eq_none_of_not_mem rest k0 hnd.1
    · rw [delKey, if_neg h, lookupKey_cons, if_neg h]
      exact ih hnd.2

/-- C4: for every cart containing a well-formed entry for `itemId` with
quantity `q`, `addItem` with that same `itemId` (and arbitrary, possibly
different, caller-supplied name and price) succeeds and yields an entry
with quantity `q + 1` whose name and price are unchanged, while every
other key of the cart maps to an unchanged entry. -/
theorem add_item_increments (s : Session) (es : CartEntries)
    (pid pname : String) (price : ℚ) (f : ItemFields) (nm : String) (pr : PyNumVal)
    (q : ℚ)
    (hs : s.cart = some (.dict es))
    (hf : lookupKey es pid = some (.dict f))
    (hn : f.name = some nm) (hp : f.price = some pr)
    (hq : f.quantity = some (.num q)) :
    ∃ es', CartManager.add_item pid pname price s = .ok ⟨some (.dict es')⟩ ∧
      lookupKey es' pid = some (.dict ⟨some nm, some pr, some (.num (q + 1))⟩) ∧
      ∀ k, k ≠ pid → lookupKey es' k = lookupKey es k := by
  obtain ⟨n0, p0, q0⟩ := f
  simp only at hn hp hq
  subst hn hp hq
  refine ⟨setKey es pid (.dict ⟨some nm, some pr, some (.num (q + 1))⟩), ?_, ?_, ?_⟩
  · simp [CartManager.add_item, hs, hf]
  · exact lookupKey_setKey_self es pid _
  · intro k hk
    exact lookupKey_setKey_ne es pid _ k hk

/-- Witness for C4 at a concrete cart. -/
theorem add_item_increments_witness :
    ∃ es', CartManager.add_item "1" "Other" 111
        ⟨some (.dict [("1", .dict ⟨some "Margherita", some (.num 299), some (.num 2)⟩),
                      ("2", .dict ⟨some "Pepperoni", some (.num 399), some (.num 1)⟩)])⟩ =
        .ok ⟨some (.dict es')⟩ ∧
      lookupKey es' "1" =
        some (.dict ⟨some "Margherita", some (.num 299), some (.num (2 + 1))⟩) ∧
      ∀ k, k ≠ "1" →
        lookupKey es' k =
          lookupKey [("1", .dict ⟨some "Margherita", some (.num 299), some (.num 2)⟩),
                     ("2", .dict ⟨some "Pepperoni", some (.num 399), some (.num 1)⟩)] k :=
  add_item_increments _ _ "1" "Other" 111 _ "Margherita" (.num 299) 2 rfl rfl rfl rfl rfl

/-- C2, counterexample: the entry `{'quantity': 2}` at key `"1"` is corrupt
in the claim's sense (it is missing both `name` and `unitPrice`), yet
`addItem("1", "X", 5)` does not replace it wholesale with
`{'name': "X", 'price': 5, 'quantity': 1}`: the line-39 check only tests for
a dict with a `quantity` key, so the entry is incremented to quantity 3 and
keeps its missing name and price. -/
theorem add_item_corrupt_cex :
    CartManager.add_item "1" "X" 5
        ⟨some (.dict [("1", .dict ⟨none, none, some (.num 2)⟩)])⟩ =
      .ok ⟨some (.dict [("1", .dict ⟨none, none, some (.num 3)⟩)])⟩ ∧
    (ItemVal.dict ⟨none, none, some (.num 3)⟩) ≠ freshEntry "X" 5 := by
  constructor
  · norm_num [CartManager.add_item, lookupKey, setKey, List.find?]
  · decide

/-- C2, amended: `addItem` replaces an existing entry wholesale with
`{name, unitPrice, quantity: 1}` exactly when that entry fails the line-39
check — it is not a mapping, or it is missing `quantity`. (An entry that is
a mapping with a `quantity` key is incremented even if `name` or
`unitPrice` is missing.) Every other key of the cart is unchanged. -/
theorem add_item_replaces_unincrementable (s : Session) (es : CartEntries)
    (pid pname : String) (price : ℚ) (v : ItemVal)
    (hs : s.cart = some (.dict es))
    (hv : lookupKey es pid = some v)
    (hcor : v = .nonDict ∨ ∃ f, v = .dict f ∧ f.quantity = none) :
    ∃ es', CartManager.add_item pid pname price s = .ok ⟨some (.dict es')⟩ ∧
      lookupKey es' pid = some (freshEntry pname price) ∧
      ∀ k, k ≠ pid → lookupKey es' k = lookupKey es k := by
  refine ⟨setKey es pid (freshEntry pname price), ?_, lookupKey_setKey_self es pid _,
    fun k hk => lookupKey_setKey_ne es pid _ k hk⟩
  rcases hcor with h | ⟨f, hvf, hq⟩
  · subst h
    simp [CartManager.add_item, hs, hv]
  · subst hvf
    simp [CartManager.add_item, hs, hv, hq]

/-- Witness for the amended C2 at a concrete cart holding a non-dict entry
at the target key and an untouched well-formed entry at another key. -/
theorem add_item_replaces_unincrementable_witness :
    ∃ es', CartManager.add_item "1" "X" 5
        ⟨some (.dict [("1", .nonDict),
                      ("2", .dict ⟨some "Pepperoni", some (.num 399), some (.num 1)⟩)])⟩ =
        .ok ⟨some (.dict es')⟩ ∧
      lookupKey es' "1" = some (freshEntry "X" 5) ∧
      ∀ k, k ≠ "1" →
        lookupKey es' k =
          lookupKey [("1", ItemVal.nonDict),
                     ("2", .dict ⟨some "Pepperoni", some (.num 399), some (.num 1)⟩)] k :=
  add_item_replaces_unincrementable _ _ "1" "X" 5 .nonDict rfl rfl (Or.inl rfl)

/-- C10: when the cart holds a dict entry for `itemId` whose `quantity`
value does not support numeric increment, `addItem` raises (the `+= 1` at
line 40 throws `TypeError`) and the `except` handler resets the whole
session cart — including all other entries — to the empty mapping before
re-raising. -/
theorem add_item_notNum_resets (s : Session) (es : CartEntries)
    (pid pname : String) (price : ℚ) (f : ItemFields)
    (hs : s.cart = some (.dict es))
    (hf : lookupKey es pid = some (.dict f))
    (hq : f.quantity = some .notNum) :
    CartManager.add_item pid pname price s = .error ⟨some (.dict [])⟩ := by
  simp [CartManager.add_item, hs, hf, hq]

/-- Witness for C10: a cart with a string-like quantity at key `"1"` and a
well-formed entry at key `"2"`; the add fails and the whole cart is reset. -/
theorem add_item_notNum_resets_witness :
    CartManager.add_item "1" "X" 5
        ⟨some (.dict [("1", .dict ⟨some "A", some (.num 10), some .notNum⟩),
                      ("2", .dict ⟨some "Pepperoni", some (.num 399), some (.num 1)⟩)])⟩ =
      .error ⟨some (.dict [])⟩ :=
  add_item_notNum_resets _ _ "1" "X" 5 _ rfl rfl rfl

/-- C7: `removeItem` deletes the entry for a present key, leaving every
other entry unchanged; an absent key is a no-op returning the session
untouched; and the `except` handler of `remove_item` swallows a fault
without resetting the cart (the session is left exactly as it was). -/
theorem remove_item_spec (pid : String) (s : Session) (es : CartEntries)
    (hs : s.cart = some (.dict es)) :
    (hasKey es pid = true →
      CartManager.remove_item pid s = ⟨some (.dict (delKey es pid))⟩ ∧
      ((es.map Prod.fst).Nodup → lookupKey (delKey es pid) pid = none) ∧
      ∀ k, k ≠ pid → lookupKey (delKey es pid) k = lookupKey es k) ∧
    (hasKey es pid = false → CartManager.remove_item pid s = s) ∧
    (∀ s0, CartManager.remove_item_handler s0 = s0) := by
  refine ⟨fun hk => ⟨?_, fun hnd => lookupKey_delKey_self es pid hnd,
      fun k hkne => lookupKey_delKey_ne es pid k hkne⟩, fun hk => ?_, fun _ => rfl⟩
  · simp [CartManager.remove_item, hs, hk]
  · simp [CartManager.remove_item, hs, hk]

/-- Witness for C7 at a two-entry cart with the target key present. -/
theorem remove_item_spec_witness :
    CartManager.remove_item "1"
        ⟨some (.dict [("1", .dict ⟨some "A", some (.num 10), some (.num 1)⟩),
                      ("2", .dict ⟨some "B", some (.num 20), some (.num 2)⟩)])⟩ =
      ⟨some (.dict (delKey [("1", .dict ⟨some "A", some (.num 10), some (.num 1)⟩),
                           ("2", .dict ⟨some "B", some (.num 20), some (.num 2)⟩)] "1"))⟩ :=
  ((remove_item_spec "1" _ _ rfl).1 (by decide)).1

/-- C6: `getCart` on a dict cart returns the stored entries with all
corrupt ones filtered out; the clean-up write runs exactly when the filter
removed at least one entry, and then the session holds the cleaned mapping,
otherwise the session is untouched; a non-dict stored cart, or an absent
one, yields an empty mapping with the session cart reset/initialized to
empty; and the `except` handler resets to empty and returns empty. The
embedding is a total function, so no execution raises. -/
theorem get_cart_spec (s : Session) :
    (∀ es, s.cart = some (.dict es) →
      (CartManager.get_cart s).result = es.filter (fun e => CartManager.wfItem e.2) ∧
      ((CartManager.get_cart s).cleaned = true ↔
        ∃ e ∈ es, ¬ CartManager.wfItem e.2 = true) ∧
      ((CartManager.get_cart s).cleaned = true →
        (CartManager.get_cart s).sess =
          ⟨some (.dict (es.filter (fun e => CartManager.wfItem e.2)))⟩) ∧
      ((CartManager.get_cart s).cleaned = false →
        (CartManager.get_cart s).sess = s)) ∧
    (s.cart = some .nonDict →
      CartManager.get_cart s = ⟨[], ⟨some (.dict [])⟩, false⟩) ∧
    (s.cart = none →
      CartManager.get_cart s = ⟨[], ⟨some (.dict [])⟩, false⟩) ∧
    (∀ s0, CartManager.get_cart_handler s0 = ⟨[], ⟨some (.dict [])⟩, false⟩) := by
  refine ⟨fun es hs => ?_, fun hs => by simp [CartManager.get_cart, hs],
    fun hs => by simp [CartManager.get_cart, hs], fun _ => rfl⟩
  have hg : CartManager.get_cart s =
      (if (es.filter (fun e => CartManager.wfItem e.2)).length ≠ es.length then
        ⟨es.filter (fun e => CartManager.wfItem e.2),
          ⟨some (.dict (es.filter (fun e => CartManager.wfItem e.2)))⟩, true⟩
      else ⟨es.filter (fun e => CartManager.wfItem e.2), s, false⟩) := by
    simp [CartManager.get_cart, hs]
  by_cases hlen : (es.filter (fun e => CartManager.wfItem e.2)).length = es.length
  · rw [hg, if_neg (by simpa using hlen)]
    refine ⟨rfl, ?_, by simp, fun _ => rfl⟩
    simp only [show (false : Bool) = true ↔ False by simp, false_iff]
    intro hex
    have hlt := List.length_filter_lt_length_iff_exists.mpr hex
    omega
  · rw [hg, if_pos (by simpa using hlen)]
    refine ⟨rfl, ?_, fun _ => rfl, by simp⟩
    simp only [true_iff]
    have hle := List.length_filter_le (fun e => CartManager.wfItem e.2) es
    exact List.length_filter_lt_length_iff_exists.mp (by omega)

/-- Witness for C6 at a cart holding one well-formed and one corrupt
entry: the corrupt entry is filtered out and the cleaned cart persisted. -/
theorem get_cart_spec_witness :
    (CartManager.get_cart
        ⟨some (.dict [("1", .dict ⟨some "A", some (.num 10), some (.num 1)⟩),
                      ("2", .nonDict)])⟩).result =
      [("1", .dict ⟨some "A", some (.num 10), some (.num 1)⟩),
       ("2", ItemVal.nonDict)].filter (fun e => CartManager.wfItem e.2) ∧
    ((CartManager.get_cart
        ⟨some (.dict [("1", .dict ⟨some "A", some (.num 10), some (.num 1)⟩),
                      ("2", .nonDict)])⟩).cleaned = true ↔
      ∃ e ∈ [("1", ItemVal.dict ⟨some "A", some (.num 10), some (.num 1)⟩),
             ("2", ItemVal.nonDict)], ¬ CartManager.wfItem e.2 = true) ∧
    ((CartManager.get_cart
        ⟨some (.dict [("1", .dict ⟨some "A", some (.num 10), some (.num 1)⟩),
                      ("2", .nonDict)])⟩).cleaned = true →
      (CartManager.get_cart
        ⟨some (.dict [("1", .dict ⟨some "A", some (.num 10), some (.num 1)⟩),
                      ("2", .nonDict)])⟩).sess =
        ⟨some (.dict ([("1", .dict ⟨some "A", some (.num 10), some (.num 1)⟩),
                       ("2", ItemVal.nonDict)].filter (fun e => CartManager.wfItem e.2)))⟩) ∧
    ((CartManager.get_cart
        ⟨some (.dict [("1", .dict ⟨some "A", some (.num 10), some (.num 1)⟩),
                      ("2", .nonDict)])⟩).cleaned = false →
      (CartManager.get_cart
        ⟨some (.dict [("1", .dict ⟨some "A", some (.num 10), some (.num 1)⟩),
                      ("2", .nonDict)])⟩).sess =
        ⟨some (.dict [("1", .dict ⟨some "A", some (.num 10), some (.num 1)⟩),
                      ("2", .nonDict)])⟩) :=
  (get_cart_spec _).1 _ rfl

theorem entryContribution_eq_zero_of_not_wf (v : ItemVal)
    (h : ¬ CartManager.wfItem v = true) : entryContribution v = 0 := by
  rcases v with f | _
  · obtain ⟨n, p, q⟩ := f
    rcases n with _ | n <;> rcases p with _ | (pv | _) <;> rcases q with _ | (qv | _) <;>
      simp_all [CartManager.wfItem, entryContribution]
  · rfl

theorem specTotal_cons (e : String × ItemVal) (l : CartEntries) :
    specTotal (e :: l) = entryContribution e.2 + specTotal l := by
  simp [specTotal]

theorem specTotal_filter_wf (es : CartEntries) :
    specTotal (es.filter (fun e => CartManager.wfItem e.2)) = specTotal es := by
  induction es with
  | nil => rfl
  | cons e rest ih =>
    by_cases h : CartManager.wfItem e.2 = true
    · simp [List.filter_cons, h, specTotal_cons, ih]
    · simp [List.filter_cons, h, specTotal_cons, ih,
        entryContribution_eq_zero_of_not_wf e.2 h]

theorem sumLoop_eq_specTotal (l : CartEntries)
    (hwf : ∀ e ∈ l, CartManager.wfItem e.2 = true)
    (hnum : ∀ e ∈ l, numericFields e.2 = true) :
    CartManager.sumLoop l = some (specTotal l) := by
  induction l with
  | nil => rfl
  | cons e rest ih =>
    obtain ⟨k, v⟩ := e
    have hwfe := hwf (k, v) (List.mem_cons_self _ _)
    have hnume := hnum (k, v) (List.mem_cons_self _ _)
    have ihr := ih (fun e he => hwf e (List.mem_cons_of_mem _ he))
      (fun e he => hnum e (List.mem_cons_of_mem _ he))
    rcases v with f | _
    · obtain ⟨n, p, q⟩ := f
      rcases n with _ | n <;> rcases p with _ | (pv | _) <;> rcases q with _ | (qv | _) <;>
        simp_all [CartManager.wfItem, numericFields, CartManager.sumLoop,
          specTotal_cons, entryContribution]
    · simp [CartManager.wfItem] at hwfe

theorem get_cart_result_dict (s : Session) (es : CartEntries)
    (hs : s.cart = some (.dict es)) :
    (CartManager.get_cart s).result = es.filter (fun e => CartManager.wfItem e.2) := by
  simp only [CartManager.get_cart, hs]
  split <;> rfl

theorem get_cart_sess_of_dict (s : Session) (es : CartEntries)
    (hs : s.cart = some (.dict es)) :
    (CartManager.get_cart s).sess = s ∨
      (CartManager.get_cart s).sess =
        ⟨some (.dict (es.filter (fun e => CartManager.wfItem e.2)))⟩ := by
  simp only [CartManager.get_cart, hs]
  split
  · exact Or.inr rfl
  · exact Or.inl rfl

/-- C3, amended: for every cart state whose well-formed entries all carry
numeric `price` and `quantity` values, `getCartTotal` returns exactly
`Σ (unitPrice × quantity)` over the valid entries — in particular it is
within tolerance 0.01 of that sum, it is 0 on an empty cart, and every
malformed entry contributes 0 (`specTotal` assigns 0 to every entry that is
not a key-complete mapping). The total is non-negative whenever every
entry's contribution is non-negative; it is negative when an entry carries
a negative price (see the counterexample for the unconditional original
claim). -/
theorem get_cart_total_spec (s : Session) (es : CartEntries)
    (hs : s.cart = some (.dict es))
    (hnum : ∀ e ∈ es, CartManager.wfItem e.2 = true → numericFields e.2 = true) :
    (CartManager.get_cart_total s).1 = specTotal es ∧
    |(CartManager.get_cart_total s).1 - specTotal es| ≤ 1 / 100 ∧
    (es = [] → (CartManager.get_cart_total s).1 = 0) ∧
    ((∀ e ∈ es, 0 ≤ entryContribution e.2) → 0 ≤ (CartManager.get_cart_total s).1) := by
  have hres := get_cart_result_dict s es hs
  have hsum : CartManager.sumLoop (CartManager.get_cart s).result =
      some (specTotal es) := by
    rw [hres, sumLoop_eq_specTotal _ (fun e he => (List.mem_filter.mp he).2)
      (fun e he => hnum e (List.mem_filter.mp he).1 (List.mem_filter.mp he).2),
      specTotal_filter_wf]
  have hval : (CartManager.get_cart_total s).1 = specTotal es := by
    simp [CartManager.get_cart_total, hsum]
  refine ⟨hval, by simp [hval], fun he => by simp [hval, he, specTotal], fun hnn => ?_⟩
  rw [hval]
  exact List.sum_nonneg (by
    intro x hx
    obtain ⟨e, he, hex⟩ := List.mem_map.mp hx
    exact hex ▸ hnn e he)

/-- Witness for the amended C3: a cart with two well-formed numeric entries
and one corrupt entry; the total is the sum over the two valid entries. -/
theorem get_cart_total_spec_witness :
    (CartManager.get_cart_total
        ⟨some (.dict [("1", .dict ⟨some "A", some (.num 299), some (.num 2)⟩),
                      ("2", .dict ⟨some "B", some (.num 399), some (.num 1)⟩),
                      ("3", .nonDict)])⟩).1 =
      specTotal [("1", .dict ⟨some "A", some (.num 299), some (.num 2)⟩),
                 ("2", .dict ⟨some "B", some (.num 399), some (.num 1)⟩),
                 ("3", ItemVal.nonDict)] ∧
    (CartManager.get_cart_total
        ⟨some (.dict [("1", .dict ⟨some "A", some (.num 299), some (.num 2)⟩),
                      ("2", .dict ⟨some "B", some (.num 399), some (.num 1)⟩),
                      ("3", .nonDict)])⟩).1 = 997 :=
  ⟨(get_cart_total_spec _ _ rfl (by decide)).1,
    ((get_cart_total_spec _ _ rfl (by decide)).1).trans
      (by norm_num [specTotal, entryContribution])⟩

/-- C3, counterexample to the original claim: a cart whose single valid
entry carries price `-5` and quantity `2` makes `getCartTotal` return
`-10`, which is the sum over valid entries but is not a non-negative
decimal as the claim demands. -/
theorem get_cart_total_negative_cex :
    (CartManager.get_cart_total
        ⟨some (.dict [("1", .dict ⟨some "A", some (.num (-5)), some (.num 2)⟩)])⟩).1 =
      -10 ∧
    ¬ (0 ≤ (CartManager.get_cart_total
        ⟨some (.dict [("1", .dict ⟨some "A", some (.num (-5)), some (.num 2)⟩)])⟩).1) := by
  constructor <;>
    norm_num [CartManager.get_cart_total, CartManager.get_cart, CartManager.sumLoop,
      CartManager.wfItem]

theorem insert_items_ok (oid : ℕ) (items : List (String × CheckoutItem))
    (idx : ℕ) (h : ∀ ki ∈ items, (pyInt ki.1).isSome) :
    OrderProcessor.insert_items none oid items idx =
      some (items.map (fun ki =>
        (⟨oid, (pyInt ki.1).getD 0, ki.2.name, ki.2.price, ki.2.quantity⟩ : OrderItemRow))) := by
  induction items generalizing idx with
  | nil => rfl
  | cons ki rest ih =>
    obtain ⟨k, it⟩ := ki
    obtain ⟨pid, hpid⟩ :=
      Option.isSome_iff_exists.mp (h (k, it) (List.mem_cons_self _ _))
    have ihr := ih (idx + 1) (fun e he => h e (List.mem_cons_of_mem _ he))
    simp [OrderProcessor.insert_items, hpid, ihr]

theorem insert_items_none_of_bad_key (faultAt : Option ℕ) (oid : ℕ)
    (items : List (String × CheckoutItem)) (idx : ℕ)
    (k : String) (it : CheckoutItem) (hmem : (k, it) ∈ items)
    (hk : pyInt k = none) :
    OrderProcessor.insert_items faultAt oid items idx = none := by
  induction items generalizing idx with
  | nil => simp at hmem
  | cons ki rest ih =>
    obtain ⟨k0, it0⟩ := ki
    rcases List.mem_cons.mp hmem with heq | hrest
    · injection heq with h1 h2
      subst h1
      simp [OrderProcessor.insert_items, hk]
    · cases hpid : pyInt k0 with
      | none => simp [OrderProcessor.insert_items, hpid]
      | some pid =>
        by_cases hfa : faultAt = some idx
        · simp [OrderProcessor.insert_items, hpid, hfa]
        · simp [OrderProcessor.insert_items, hpid, hfa, ih (idx + 1) hrest]

/-- C5: whenever `createOrder` fails mid-sequence — a store fault injected
at the order INSERT (statement 0) or at any line-item INSERT, or a
non-numeric cart key whose `int()` conversion raises — it returns no order
id (first component `none`, the raised exception) and the rollback leaves
the store exactly as it was; moreover a non-numeric key always makes the
call fail, whatever the fault injection. -/
theorem create_order_failure_atomic (customer_name phone address : String)
    (cart_items : List (String × CheckoutItem)) (total : ℚ) (db : Db) :
    (∀ faultAt,
      (OrderProcessor.create_order faultAt customer_name phone address
        cart_items total db).1 = none →
      (OrderProcessor.create_order faultAt customer_name phone address
        cart_items total db).2 = db) ∧
    (∀ k it, (k, it) ∈ cart_items → pyInt k = none → ∀ faultAt,
      (OrderProcessor.create_order faultAt customer_name phone address
        cart_items total db).1 = none) := by
  constructor
  · intro faultAt hfail
    by_cases h0 : faultAt = some 0
    · simp [OrderProcessor.create_order, h0]
    · cases hins : OrderProcessor.insert_items faultAt db.nextId cart_items 1 with
      | none => simp [OrderProcessor.create_order, h0, hins]
      | some rows =>
        exfalso
        simp [OrderProcessor.create_order, h0, hins] at hfail
  · intro k it hmem hk faultAt
    by_cases h0 : faultAt = some 0
    · simp [OrderProcessor.create_order, h0]
    · simp [OrderProcessor.create_order, h0,
        insert_items_none_of_bad_key faultAt db.nextId cart_items 1 k it hmem hk]

/-- Witness for C5: a cart with the non-numeric key `"x"` makes
`create_order` fail and leave the (empty) store untouched. -/
theorem create_order_failure_atomic_witness :
    (OrderProcessor.create_order none "Jane" "555" "Addr"
      [("x", ⟨"X", 10, 1⟩)] 10 ⟨[], [], 1, 0⟩).1 = none ∧
    (OrderProcessor.create_order none "Jane" "555" "Addr"
      [("x", ⟨"X", 10, 1⟩)] 10 ⟨[], [], 1, 0⟩).2 = ⟨[], [], 1, 0⟩ := by
  have h := create_order_failure_atomic "Jane" "555" "Addr"
    [("x", ⟨"X", 10, 1⟩)] 10 ⟨[], [], 1, 0⟩
  have h1 := h.2 "x" ⟨"X", 10, 1⟩ (List.mem_cons_self _ _) (by decide) none
  exact ⟨h1, h.1 none h1⟩

/-- C1: on a well-formed store and numeric cart keys, `createOrder`
followed by `getOrderById` on the returned id yields a record whose
customer name, phone, address and total (exactly, hence within 0.01) equal
the inputs, and whose line items are exactly the `(itemId, name, price,
quantity)` tuples of the cart in iteration order, one per cart entry. -/
theorem create_order_roundtrip (db : Db) (customer_name phone address : String)
    (cart_items : List (String × CheckoutItem)) (total : ℚ)
    (hwf : DbWF db)
    (hkeys : ∀ ki ∈ cart_items, (pyInt ki.1).isSome)
    (oid : ℕ) (db2 : Db)
    (hco : OrderProcessor.create_order none customer_name phone address
      cart_items total db = (some oid, db2)) :
    ∃ out, OrderProcessor.get_order_by_id oid db2 = some out ∧
      out.customer_name = customer_name ∧
      out.phone = phone ∧
      out.address = address ∧
      |out.total_price - total| ≤ 1 / 100 ∧
      out.items = cart_items.map (fun ki =>
        (⟨(pyInt ki.1).getD 0, ki.2.name, ki.2.price, ki.2.quantity⟩ : OrderProcessor.OrderItemOut)) ∧
      out.items.length = cart_items.length := by
  rw [OrderProcessor.create_order] at hco
  simp only [insert_items_ok db.nextId cart_items 1 hkeys] at hco
  rw [if_neg (by simp), Prod.mk.injEq] at hco
  obtain ⟨h1, h2⟩ := hco
  obtain rfl := Option.some.inj h1
  subst h2
  have hfindold : db.orders.find? (fun r => r.id = db.nextId) = none :=
    List.find?_eq_none.mpr (fun r hr => by
      simpa using Nat.ne_of_lt (hwf.1 r hr))
  have hfind :
      (db.orders ++
        [(⟨db.nextId, customer_name, phone, address, total, db.now⟩ : OrderRow)]).find?
          (fun r => r.id = db.nextId) =
        some ⟨db.nextId, customer_name, phone, address, total, db.now⟩ := by
    rw [List.find?_append, hfindold]
    simp
  have hfilterold :
      db.order_items.filter (fun ir => ir.order_id = db.nextId) = [] := by
    rw [List.filter_eq_nil_iff]
    intro ir hir
    simpa using Nat.ne_of_lt (hwf.2 ir hir)
  have hfilternew :
      (cart_items.map (fun ki =>
        (⟨db.nextId, (pyInt ki.1).getD 0, ki.2.name, ki.2.price, ki.2.quantity⟩ :
          OrderItemRow))).filter (fun ir => ir.order_id = db.nextId) =
      cart_items.map (fun ki =>
        (⟨db.nextId, (pyInt ki.1).getD 0, ki.2.name, ki.2.price, ki.2.quantity⟩ :
          OrderItemRow)) := by
    rw [List.filter_eq_self]
    intro ir hir
    obtain ⟨ki, _, hki⟩ := List.mem_map.mp hir
    simp [← hki]
  refine ⟨⟨db.nextId, customer_name, phone, address, total, db.now,
      cart_items.map (fun ki =>
        (⟨(pyInt ki.1).getD 0, ki.2.name, ki.2.price, ki.2.quantity⟩ :
          OrderProcessor.OrderItemOut))⟩, ?_, rfl, rfl, rfl, by norm_num, rfl, by simp⟩
  rw [OrderProcessor.get_order_by_id]
  simp only [List.filter_append, hfind, hfilterold, hfilternew, List.nil_append,
    List.map_map]
  simp [Function.comp]

/-- Witness for C1 on an initially empty store and a one-entry cart. -/
theorem create_order_roundtrip_witness :
    ∃ out, OrderProcessor.get_order_by_id 1
        (OrderProcessor.create_order none "Jane" "555" "Addr"
          [("2", ⟨"X", 10, 3⟩)] 30 ⟨[], [], 1, 77⟩).2 = some out ∧
      out.customer_name = "Jane" ∧
      out.phone = "555" ∧
      out.address = "Addr" ∧
      |out.total_price - 30| ≤ 1 / 100 ∧
      out.items = [("2", (⟨"X", 10, 3⟩ : CheckoutItem))].map (fun ki =>
        (⟨(pyInt ki.1).getD 0, ki.2.name, ki.2.price, ki.2.quantity⟩ :
          OrderProcessor.OrderItemOut)) ∧
      out.items.length = [("2", (⟨"X", 10, 3⟩ : CheckoutItem))].length :=
  create_order_roundtrip ⟨[], [], 1, 77⟩ "Jane" "555" "Addr"
    [("2", ⟨"X", 10, 3⟩)] 30 (by constructor <;> simp) (by decide) 1
    (OrderProcessor.create_order none "Jane" "555" "Addr"
      [("2", ⟨"X", 10, 3⟩)] 30 ⟨[], [], 1, 77⟩).2 (by rfl)

/-- C8, counterexample: with one order in the store, calling
`getAllOrders` with `limit = 0` supplied returns that one row — the Python
truthiness test `if limit:` drops the LIMIT clause — not the empty page of
at most 0 rows the claim requires for a supplied limit. -/
theorem get_all_orders_zero_limit_cex :
    (OrderProcessor.get_all_orders false (some 0) 0
      ⟨[⟨1, "N", "P", "A", 10, 5⟩], [], 2, 9⟩).length = 1 ∧
    ¬ ((OrderProcessor.get_all_orders false (some 0) 0
      ⟨[⟨1, "N", "P", "A", 10, 5⟩], [], 2, 9⟩).length ≤ 0) := by
  constructor
  · rfl
  · decide

/-- C8, amended: `getAllOrders` returns orders sorted by creation time
descending; when a nonzero limit is supplied the result is the page of at
most `limit` rows obtained by skipping `offset` rows of the sorted list;
omitting the limit (and likewise passing limit 0, which the `if limit:`
truthiness test treats as omitted — see the counterexample) returns all
rows; and on a store fault the result is the empty list rather than a
failure. -/
theorem get_all_orders_spec (db : Db) (limit : Option ℕ) (offset : ℕ) :
    List.Sorted OrderProcessor.dateDesc
      (OrderProcessor.get_all_orders false limit offset db) ∧
    (∀ l, limit = some l → l ≠ 0 →
      OrderProcessor.get_all_orders false limit offset db =
        ((db.orders.insertionSort OrderProcessor.dateDesc).drop offset).take l ∧
      (OrderProcessor.get_all_orders false limit offset db).length ≤ l) ∧
    (limit = none →
      (OrderProcessor.get_all_orders false limit offset db).Perm db.orders) ∧
    (∀ limit2 offset2, OrderProcessor.get_all_orders true limit2 offset2 db = []) := by
  have hsorted := List.sorted_insertionSort OrderProcessor.dateDesc db.orders
  refine ⟨?_, fun l hl hl0 => ?_, fun hl => ?_, fun _ _ => rfl⟩
  · cases limit with
    | none => simpa [OrderProcessor.get_all_orders] using hsorted
    | some l =>
      by_cases hl0 : l = 0
      · simpa [OrderProcessor.get_all_orders, hl0] using hsorted
      · have : OrderProcessor.get_all_orders false (some l) offset db =
            ((db.orders.insertionSort OrderProcessor.dateDesc).drop offset).take l := by
          simp [OrderProcessor.get_all_orders, hl0]
        rw [this]
        exact hsorted.sublist
          ((List.take_sublist _ _).trans (List.drop_sublist _ _))
  · subst hl
    have heq : OrderProcessor.get_all_orders false (some l) offset db =
        ((db.orders.insertionSort OrderProcessor.dateDesc).drop offset).take l := by
      simp [OrderProcessor.get_all_orders, hl0]
    refine ⟨heq, ?_⟩
    rw [heq]
    exact (List.length_take _ _).trans_le (Nat.min_le_left _ _)
  · subst hl
    simpa [OrderProcessor.get_all_orders] using
      List.perm_insertionSort OrderProcessor.dateDesc db.orders

/-- Witness for the amended C8: a two-order store, limit 1, offset 1. -/
theorem get_all_orders_spec_witness :
    OrderProcessor.get_all_orders false (some 1) 1
        ⟨[⟨1, "N", "P", "A", 10, 5⟩, ⟨2, "M", "Q", "B", 20, 8⟩], [], 3, 9⟩ =
      ((([⟨1, "N", "P", "A", 10, 5⟩,
          (⟨2, "M", "Q", "B", 20, 8⟩ : OrderRow)] : List OrderRow).insertionSort
            OrderProcessor.dateDesc).drop 1).take 1 ∧
    (OrderProcessor.get_all_orders false (some 1) 1
        ⟨[⟨1, "N", "P", "A", 10, 5⟩, ⟨2, "M", "Q", "B", 20, 8⟩], [], 3, 9⟩).length ≤ 1 :=
  (get_all_orders_spec ⟨[⟨1, "N", "P", "A", 10, 5⟩, ⟨2, "M", "Q", "B", 20, 8⟩], [], 3, 9⟩
    (some 1) 1).2.1 1 rfl (by decide)

/-- C9: a limit of 0 is falsy in Python, so `if limit:` omits the LIMIT
clause entirely and `getAllOrders(0, offset)` returns all order rows (the
sorted store, a permutation of the orders table), identically to omitting
the limit — not an empty page of zero rows. -/
theorem get_all_orders_limit_zero_all_rows (db : Db) (offset : ℕ) :
    OrderProcessor.get_all_orders false (some 0) offset db =
      db.orders.insertionSort OrderProcessor.dateDesc ∧
    OrderProcessor.get_all_orders false (some 0) offset db =
      OrderProcessor.get_all_orders false none 0 db ∧
    (OrderProcessor.get_all_orders false (some 0) offset db).Perm db.orders := by
  refine ⟨rfl, rfl, ?_⟩
  simpa [OrderProcessor.get_all_orders] using
    List.perm_insertionSort OrderProcessor.dateDesc db.orders

end PizzaShop
